import Mathlib

/-!
# tarea-api-usuarios: the user entity, the Postgres repository and the start-up port

A shallow embedding of

* `internal/domain/user/entity.go` (`User`, `User.Validate`),
* `internal/infrastructure/repository/postgres_repository.go`
  (`FindAll`, `FindByID`, `Create`, `Update`, `Delete`),
* the `DB_PORT` handling of `cmd/main.go`, together with `strconv.Atoi`.

Go values are modelled as follows.  A `string` is its sequence of bytes.  An `int` is a
mathematical integer (the platform is taken to be 64-bit; the only place where the width
matters is `strconv`, where it is explicit).  A nilable `error` is an `Option GoError`, a
nilable pointer `*User` is an `Option User`, and a slice is an `Option (List _)` whose `none`
is the nil slice.  The database behind `*sql.DB` is an explicit state that every repository
method receives and returns.
-/

namespace TareaApiUsuarios

/-! ## Go values -/

/-- A Go `string`: an immutable sequence of bytes. -/
abbrev GoString := List (Fin 256)

/-- An error value produced by `database/sql` or by the driver, other than the sentinel
`sql.ErrNoRows`.  The code only tells such values apart by identity. -/
structure DriverError where
  code : Nat
deriving DecidableEq, Repr

/-- The error values that reach the repository.  Go compares errors by identity, so the
three origins are kept apart: an error built by `errors.New` in this repository, the
sentinel `sql.ErrNoRows`, and every other value coming out of `database/sql`. -/
inductive GoError where
  | errorsNew (text : String)
  | ErrNoRows
  | driver (e : DriverError)
deriving DecidableEq, Repr

/-- A Go slice, with `none` for the nil slice. -/
abbrev Slice (α : Type) := Option (List α)

/-- The elements of a slice; the nil slice has none. -/
def Slice.elems {α : Type} : Slice α → List α
  | none => []
  | some xs => xs

/-- Go `len(s)`. -/
def Slice.len {α : Type} (s : Slice α) : Nat := (Slice.elems s).length

/-- Go `append(s, x)`: the result is never nil. -/
def Slice.append {α : Type} (s : Slice α) (x : α) : Slice α := some (Slice.elems s ++ [x])

/-! ## `internal/domain/user/entity.go` -/

/-- The `User` struct. -/
structure User where
  ID : Int
  Name : GoString
  Email : GoString
deriving DecidableEq, Repr

/-- The zero value of `User`, what `var u user.User` declares. -/
def User.zero : User := ⟨0, [], []⟩

/-- The method `func (u *User) Validate() error`. -/
def User.Validate (u : User) : Option GoError :=
  if u.Name = [] then
    some (GoError.errorsNew "name is required")
  else if u.Email = [] then
    some (GoError.errorsNew "email is required")
  else
    none

/-! ## The store behind `*sql.DB` -/

/-- Modelled from the spec: one row of the table `users(id PRIMARY KEY auto-generated, name,
email)`.  The table declaration is not part of the sources; the columns are the ones the
SQL statements of the repository name. -/
structure Row where
  id : Int
  name : GoString
  email : GoString
deriving DecidableEq, Repr

/-- Modelled from the spec: the state of the relational store reached through `*sql.DB`,
the rows of `users` in the order in which the store yields them. -/
structure DB where
  users : List Row
deriving DecidableEq, Repr

/-- What goes wrong at the store during one repository call.  `stmt` makes the statement
itself fail (`db.Query`, `db.QueryRow`, `db.Exec`); `cursor k = some e` makes the row cursor
fail with `e` when it is advanced after `k` rows have been delivered; `scan k = some e` makes
`Scan` of the row delivered after `k` others fail with `e`; `rowsAffected` makes
`result.RowsAffected` fail. -/
structure Faults where
  stmt : Option DriverError
  cursor : Nat → Option DriverError
  scan : Nat → Option DriverError
  rowsAffected : Option DriverError

/-- A call during which the store does not fail. -/
def Faults.clean : Faults := ⟨none, fun _ => none, fun _ => none, none⟩

/-- The cursor `*sql.Rows` as the code can observe it: `done` when the result set is
exhausted (`Next` is false, `Err` is nil), `broken e` when advancing fails (`Next` is false,
`Err` is `e`), and `row cols scanErr rest` when `Next` is true, `Scan` then yields the columns
`cols` unless `scanErr` is set, and `rest` is the cursor afterwards. -/
inductive Rows (α : Type) where
  | done
  | broken (e : DriverError)
  | row (cols : α) (scanErr : Option DriverError) (rest : Rows α)

/-- The method `rows.Err()`: the error that ended the iteration, if any. -/
def Rows.Err {α : Type} : Rows α → Option GoError
  | Rows.done => none
  | Rows.broken e => some (GoError.driver e)
  | Rows.row _ _ rest => Rows.Err rest

/-- The method `rows.Close()` on the lib/pq driver: the rows not yet read are skipped without
being scanned, and the error that stops the cursor on the way, if any, is returned. -/
def Rows.Close {α : Type} : Rows α → Option GoError
  | Rows.done => none
  | Rows.broken e => some (GoError.driver e)
  | Rows.row _ _ rest => Rows.Close rest

/-- The cursor over a result set `rs` whose first row is the `k`-th one delivered. -/
def Faults.stream {α : Type} (f : Faults) : Nat → List α → Rows α
  | k, [] =>
    match f.cursor k with
    | some e => Rows.broken e
    | none => Rows.done
  | k, r :: rs =>
    match f.cursor k with
    | some e => Rows.broken e
    | none => Rows.row r (f.scan k) (Faults.stream f (k + 1) rs)

/-- The `*sql.Row` returned by `db.QueryRow`: a deferred error or a cursor. -/
structure SqlRow (α : Type) where
  err : Option GoError
  rows : Rows α

/-- The method `(*sql.Row).Scan` of `database/sql`, returning what it wrote to the destination
next to the error: the deferred error if there is one; otherwise, when the cursor delivers no
row, the cursor error or else `sql.ErrNoRows`; otherwise the error of scanning the first row;
and after a successful scan, which has written the destination, the result of
`r.rows.Close()`, so that a query that does not run to completion is reported. -/
def SqlRow.Scan {α : Type} (r : SqlRow α) : Option α × Option GoError :=
  match r.err with
  | some err => (none, some err)
  | none =>
    match r.rows with
    | Rows.done => (none, some GoError.ErrNoRows)
    | Rows.broken e => (none, some (GoError.driver e))
    | Rows.row _ (some e) _ => (none, some (GoError.driver e))
    | Rows.row cols none rest => (some cols, Rows.Close rest)

/-- The `sql.Result` returned by `db.Exec`, reduced to what `RowsAffected` returns. -/
structure SqlResult where
  RowsAffected : Int × Option GoError

/-- The error with which the store rejects a second row with an existing primary key
(SQLSTATE 23505). -/
def uniqueViolation : DriverError := ⟨23505⟩

/-- The call `db.Query` with the statement SELECT id, name, email FROM users. -/
def DB.QueryAll (db : DB) (f : Faults) : Except GoError (Rows Row) :=
  match f.stmt with
  | some e => Except.error (GoError.driver e)
  | none => Except.ok (Faults.stream f 0 db.users)

/-- The call `db.QueryRow` with the statement SELECT id, name, email FROM users WHERE id = $1. -/
def DB.QueryRowByID (db : DB) (f : Faults) (id : Int) : SqlRow Row :=
  match f.stmt with
  | some e => ⟨some (GoError.driver e), Rows.done⟩
  | none => ⟨none, Faults.stream f 0 (db.users.filter (fun r => r.id = id))⟩

/-- The call `db.QueryRow` with the statement INSERT INTO users (name, email) VALUES ($1, $2)
RETURNING id, when the store generates `gen` for the id: the row is added unless the
statement fails or `gen` is already the id of a row, `id` being the primary key of the
table. -/
def DB.QueryRowInsert (db : DB) (f : Faults) (gen : Int) (name email : GoString) :
    DB × SqlRow Int :=
  match f.stmt with
  | some e => (db, ⟨some (GoError.driver e), Rows.done⟩)
  | none =>
    if db.users.any (fun r => r.id = gen) then
      (db, ⟨some (GoError.driver uniqueViolation), Rows.done⟩)
    else
      (⟨db.users ++ [⟨gen, name, email⟩]⟩, ⟨none, Faults.stream f 0 [gen]⟩)

/-- The result of a statement that touched `n` rows. -/
def Faults.result (f : Faults) (n : Nat) : SqlResult :=
  match f.rowsAffected with
  | some e => ⟨(0, some (GoError.driver e))⟩
  | none => ⟨((n : Int), none)⟩

/-- The call `db.Exec` with the statement UPDATE users SET name = $1, email = $2 WHERE id = $3. -/
def DB.ExecUpdate (db : DB) (f : Faults) (name email : GoString) (id : Int) :
    DB × Except GoError SqlResult :=
  match f.stmt with
  | some e => (db, Except.error (GoError.driver e))
  | none =>
    (⟨db.users.map (fun r => if r.id = id then ⟨r.id, name, email⟩ else r)⟩,
      Except.ok (Faults.result f (db.users.filter (fun r => r.id = id)).length))

/-- The call `db.Exec` with the statement DELETE FROM users WHERE id = $1. -/
def DB.ExecDelete (db : DB) (f : Faults) (id : Int) : DB × Except GoError SqlResult :=
  match f.stmt with
  | some e => (db, Except.error (GoError.driver e))
  | none =>
    (⟨db.users.filter (fun r => ¬ r.id = id)⟩,
      Except.ok (Faults.result f (db.users.filter (fun r => r.id = id)).length))

/-! ## `internal/infrastructure/repository/postgres_repository.go` -/

/-- The struct `PostgresUserRepository`, holding the database handle. -/
structure PostgresUserRepository where
  db : DB
deriving DecidableEq, Repr

/-- A `User` filled positionally from the columns `id, name, email`. -/
def Row.scanUser (cols : Row) (u : User) : User :=
  { u with ID := cols.id, Name := cols.name, Email := cols.email }

/-- The `for rows.Next()` loop of `FindAll`.  When `Next` is false the loop ends, whatever
`rows.Err()` holds. -/
def PostgresUserRepository.FindAll.loop : Rows Row → Slice User → Slice User × Option GoError
  | Rows.done, users => (users, none)
  | Rows.broken _, users => (users, none)
  | Rows.row cols scanErr rest, users =>
    match scanErr with
    | some e => (none, some (GoError.driver e))
    | none =>
      PostgresUserRepository.FindAll.loop rest (Slice.append users (Row.scanUser cols User.zero))

/-- The method `func (r *PostgresUserRepository) FindAll() ([]user.User, error)`. -/
def PostgresUserRepository.FindAll (r : PostgresUserRepository) (f : Faults) :
    Slice User × Option GoError :=
  match r.db.QueryAll f with
  | Except.error err => (none, some err)
  | Except.ok rows => PostgresUserRepository.FindAll.loop rows none

/-- The variable `u` of `FindByID` after `Scan(&u.ID, &u.Name, &u.Email)` wrote `dest`. -/
def User.scanned (dest : Option Row) (u : User) : User :=
  match dest with
  | some cols => Row.scanUser cols u
  | none => u

/-- The method `func (r *PostgresUserRepository) FindByID(id int) (*user.User, error)`. -/
def PostgresUserRepository.FindByID (r : PostgresUserRepository) (f : Faults) (id : Int) :
    Option User × Option GoError :=
  match SqlRow.Scan (r.db.QueryRowByID f id) with
  | (_, some err) =>
    if err = GoError.ErrNoRows then
      (none, some (GoError.errorsNew "user not found"))
    else
      (none, some err)
  | (dest, none) => (some (User.scanned dest User.zero), none)

/-- The pointee `u` of `Create` after `Scan(&u.ID)` wrote `dest`. -/
def User.scannedID (dest : Option Int) (u : User) : User :=
  match dest with
  | some id => { u with ID := id }
  | none => u

/-- The method `func (r *PostgresUserRepository) Create(u *user.User) error`, returning the
repository and the pointee `u` after the call next to the error.  The error of `Scan` is
returned as it is, whether or not `u.ID` has been written. -/
def PostgresUserRepository.Create (r : PostgresUserRepository) (f : Faults) (gen : Int)
    (u : User) : PostgresUserRepository × User × Option GoError :=
  match r.db.QueryRowInsert f gen u.Name u.Email with
  | (db, row) =>
    match SqlRow.Scan row with
    | (dest, err) => (⟨db⟩, User.scannedID dest u, err)

/-- The method `func (r *PostgresUserRepository) Update(u *user.User) error`. -/
def PostgresUserRepository.Update (r : PostgresUserRepository) (f : Faults) (u : User) :
    PostgresUserRepository × Option GoError :=
  match r.db.ExecUpdate f u.Name u.Email u.ID with
  | (db, Except.error err) => (⟨db⟩, some err)
  | (db, Except.ok result) =>
    match result.RowsAffected with
    | (_, some err) => (⟨db⟩, some err)
    | (rowsAffected, none) =>
      if rowsAffected = 0 then
        (⟨db⟩, some (GoError.errorsNew "user not found"))
      else
        (⟨db⟩, none)

/-- The method `func (r *PostgresUserRepository) Delete(id int) error`. -/
def PostgresUserRepository.Delete (r : PostgresUserRepository) (f : Faults) (id : Int) :
    PostgresUserRepository × Option GoError :=
  match r.db.ExecDelete f id with
  | (db, Except.error err) => (⟨db⟩, some err)
  | (db, Except.ok result) =>
    match result.RowsAffected with
    | (_, some err) => (⟨db⟩, some err)
    | (rowsAffected, none) =>
      if rowsAffected = 0 then
        (⟨db⟩, some (GoError.errorsNew "user not found"))
      else
        (⟨db⟩, none)

/-! ## `strconv` at base 10 and bit size 0, on a 64-bit platform -/

/-- The constant `strconv.IntSize`, the size in bits of an `int`. -/
def intSize : Nat := 64

/-- The `Err` field of a `*strconv.NumError`. -/
inductive NumError where
  | ErrSyntax
  | ErrRange
deriving DecidableEq, Repr

/-- The constant `maxUint64` of `strconv`. -/
def maxUint64 : Nat := 2 ^ 64 - 1

/-- The function `lower(c)` of `strconv`, which sets the bit `'x' - 'X'` of the byte. -/
def lower (c : Nat) : Nat := c ||| 32

/-- The digit value that the loop of `ParseUint` assigns to a byte when the base is not 0:
`c - '0'` for a decimal digit, `lower(c) - 'a' + 10` for a letter, and none otherwise. -/
def ParseUint.digit (c : Fin 256) : Option Nat :=
  if 48 ≤ c.val ∧ c.val ≤ 57 then
    some (c.val - 48)
  else if 97 ≤ lower c.val ∧ lower c.val ≤ 122 then
    some (lower c.val - 97 + 10)
  else
    none

/-- The loop of `ParseUint` over the bytes of `s`, with the `uint64` accumulator `n`. -/
def ParseUint.loop (cutoff maxVal : Nat) : List (Fin 256) → Nat → Nat × Option NumError
  | [], n => (n, none)
  | c :: cs, n =>
    match ParseUint.digit c with
    | none => (0, some NumError.ErrSyntax)
    | some d =>
      if d ≥ 10 then
        (0, some NumError.ErrSyntax)
      else if n ≥ cutoff then
        (maxVal, some NumError.ErrRange)
      else
        let n10 := n * 10 % 2 ^ 64
        let n1 := (n10 + d) % 2 ^ 64
        if n1 < n10 ∨ n1 > maxVal then
          (maxVal, some NumError.ErrRange)
        else
          ParseUint.loop cutoff maxVal cs n1

/-- The function `strconv.ParseUint(s, 10, 0)`. -/
def ParseUint (s : GoString) : Nat × Option NumError :=
  if s = [] then
    (0, some NumError.ErrSyntax)
  else
    let cutoff := maxUint64 / 10 + 1
    let maxVal := (2 ^ intSize % 2 ^ 64 + 2 ^ 64 - 1) % 2 ^ 64
    ParseUint.loop cutoff maxVal s 0

/-- The function `strconv.ParseInt(s, 10, 0)`. -/
def ParseInt (s : GoString) : Int × Option NumError :=
  match s with
  | [] => (0, some NumError.ErrSyntax)
  | c :: cs =>
    let neg := decide (c ≠ 43 ∧ c = 45)
    let s₁ := if c = 43 then cs else if c = 45 then cs else s
    match ParseUint s₁ with
    | (_, some NumError.ErrSyntax) => (0, some NumError.ErrSyntax)
    | (un, _) =>
      let cutoff := 2 ^ (intSize - 1)
      if neg = false ∧ un ≥ cutoff then
        (((cutoff - 1 : Nat) : Int), some NumError.ErrRange)
      else if neg = true ∧ un > cutoff then
        (-((cutoff : Nat) : Int), some NumError.ErrRange)
      else if neg = true then
        (-((un : Nat) : Int), none)
      else
        (((un : Nat) : Int), none)

/-- The loop of the fast path of `Atoi`: `ch -= '0'` in byte arithmetic, a syntax error when
the result exceeds 9, and `n = n*10 + int(ch)` otherwise.  At most 18 digits are read, so the
`int` accumulator does not overflow. -/
def Atoi.loop : List (Fin 256) → Int → Option Int
  | [], n => some n
  | c :: cs, n =>
    let ch := (c.val + 256 - 48) % 256
    if ch > 9 then none else Atoi.loop cs (n * 10 + (ch : Int))

/-- The function `strconv.Atoi(s)`: the value and the error. -/
def Atoi (s : GoString) : Int × Option NumError :=
  let sLen := s.length
  if (intSize = 32 ∧ 0 < sLen ∧ sLen < 10) ∨ (intSize = 64 ∧ 0 < sLen ∧ sLen < 19) then
    match s with
    | [] => (0, some NumError.ErrSyntax)
    | c :: cs =>
      let s₁ := if c = 45 ∨ c = 43 then cs else s
      if (c = 45 ∨ c = 43) ∧ s₁.length < 1 then
        (0, some NumError.ErrSyntax)
      else
        match Atoi.loop s₁ 0 with
        | none => (0, some NumError.ErrSyntax)
        | some n => (if c = 45 then -n else n, none)
  else
    ParseInt s

/-! ## `cmd/main.go` -/

/-- The bytes of the string "5432". -/
def defaultPort : GoString := [53, 52, 51, 50]

/-- The value of `port` in `main`, where `dbPort` is what `os.Getenv("DB_PORT")` returns:
the default replaces the empty string, and the error of `Atoi` is dropped. -/
def main.port (dbPort : GoString) : Int :=
  let portAsString := if dbPort = [] then defaultPort else dbPort
  (Atoi portAsString).1

/-! ## Decimal literals -/

/-- A byte is a decimal digit. -/
def isDigit (c : Fin 256) : Bool := decide (48 ≤ c.val ∧ c.val ≤ 57)

/-- The number that a string of decimal digits denotes after the digits of `n`. -/
def decimalFrom : Nat → List (Fin 256) → Nat
  | n, [] => n
  | n, c :: cs => decimalFrom (n * 10 + (c.val - 48)) cs

/-- The number that a string of decimal digits denotes. -/
def decimal (ds : List (Fin 256)) : Nat := decimalFrom 0 ds

/-- A string without its sign, when it starts with `+` or `-`. -/
def unsigned : GoString → GoString
  | [] => []
  | c :: cs => if c = 43 ∨ c = 45 then cs else c :: cs

/-- The string starts with `-`. -/
def negative (s : GoString) : Bool := decide (s.head? = some 45)

/-- A decimal integer literal: an optional sign followed by one or more decimal digits. -/
def isLiteral (s : GoString) : Prop := unsigned s ≠ [] ∧ ∀ c ∈ unsigned s, isDigit c = true

/-- The integer that a decimal integer literal denotes. -/
def literalValue (s : GoString) : Int :=
  if negative s = true then -((decimal (unsigned s) : Nat) : Int)
  else ((decimal (unsigned s) : Nat) : Int)

/-- The leading run of decimal digits after the optional sign. -/
def digitRun (s : GoString) : List (Fin 256) := (unsigned s).takeWhile isDigit

/-- Saturation of an integer to the range of a 64-bit `int`. -/
def clampInt (v : Int) : Int := max (-(2 ^ 63)) (min v (2 ^ 63 - 1))

/-- The value of `Atoi` read off the string: saturated by sign when the leading digit run
exceeds `maxUint64`, the saturated literal value on a literal, and 0 otherwise. -/
def atoiValue (s : GoString) : Int :=
  if 2 ^ 64 ≤ decimal (digitRun s) then
    (if negative s = true then -(2 ^ 63) else 2 ^ 63 - 1)
  else if unsigned s ≠ [] ∧ (unsigned s).all isDigit = true then
    clampInt (literalValue s)
  else 0

/-- The bytes of the string "9223372036854775808", the decimal literal of `2 ^ 63`. -/
def twoPow63Literal : GoString :=
  [57, 50, 50, 51, 51, 55, 50, 48, 51, 54, 56, 53, 52, 55, 55, 53, 56, 48, 56]

/-- The bytes of the string "99999999999999999999x": twenty nines followed by a letter. -/
def twentyNinesAndLetter : GoString :=
  [57, 57, 57, 57, 57, 57, 57, 57, 57, 57, 57, 57, 57, 57, 57, 57, 57, 57, 57, 57, 120]

/-! ## Faults used below -/

/-- A store fault: the connection is lost (SQLSTATE 08006) when the cursor is advanced after
one row has been delivered. -/
def lostAfterOneRow : Faults :=
  ⟨none, fun k => if k = 1 then some ⟨8006⟩ else none, fun _ => none, none⟩

/-! ## Auxiliary facts about the store -/

/-- The first row of a selection is the first row of the table that satisfies the
condition. -/
theorem head?_filter_eq_find? {α : Type} (p : α → Bool) (l : List α) :
    (l.filter p).head? = l.find? p := by
  induction l with
  | nil => rfl
  | cons a l ih => by_cases h : p a = true <;> simp [List.filter, List.find?, h, ih]

/-- A selection whose first row is known. -/
theorem filter_of_find? {α : Type} (p : α → Bool) (l : List α) (a : α)
    (h : l.find? p = some a) : ∃ rest, l.filter p = a :: rest := by
  rw [← head?_filter_eq_find?] at h
  cases hl : l.filter p with
  | nil => rw [hl] at h; simp at h
  | cons b rest =>
    rw [hl] at h
    simp only [List.head?_cons, Option.some.injEq] at h
    exact ⟨rest, by rw [h]⟩

/-- Closing a cursor yields no error or an error of the driver. -/
theorem Close_driver {α : Type} (rows : Rows α) :
    Rows.Close rows = none ∨ ∃ e, Rows.Close rows = some (GoError.driver e) := by
  induction rows with
  | done => exact Or.inl rfl
  | broken e => exact Or.inr ⟨e, rfl⟩
  | row cols scanErr rest ih => exact ih

/-- Closing a cursor that does not fail up to the last row yields no error. -/
theorem Close_stream_clean {α : Type} (f : Faults) (rs : List α) :
    ∀ k : Nat, (∀ j, k ≤ j → j ≤ k + rs.length → f.cursor j = none) →
      Rows.Close (Faults.stream f k rs) = none := by
  induction rs with
  | nil =>
    intro k h
    have hk : f.cursor k = none := h k (Nat.le_refl k) (by simp)
    simp [Faults.stream, hk, Rows.Close]
  | cons a rs ih =>
    intro k h
    have hk : f.cursor k = none := h k (Nat.le_refl k) (by simp)
    simp only [Faults.stream, hk, Rows.Close]
    apply ih
    intro j h1 h2
    apply h j (by omega)
    simp only [List.length_cons]
    omega

/-- Closing a cursor yields the first failure met on the way to the last row. -/
theorem Close_stream_broken {α : Type} (f : Faults) (rs : List α) :
    ∀ (k m : Nat) (e : DriverError), k ≤ m → m ≤ k + rs.length →
      (∀ j, k ≤ j → j < m → f.cursor j = none) → f.cursor m = some e →
      Rows.Close (Faults.stream f k rs) = some (GoError.driver e) := by
  induction rs with
  | nil =>
    intro k m e h1 h2 _ hm
    have hmk : m = k := by
      simp only [List.length_nil] at h2
      omega
    subst hmk
    simp [Faults.stream, hm, Rows.Close]
  | cons a rs ih =>
    intro k m e h1 h2 hbefore hm
    by_cases hmk : m = k
    · subst hmk
      simp [Faults.stream, hm, Rows.Close]
    · have hk : f.cursor k = none := hbefore k (Nat.le_refl k) (by omega)
      simp only [Faults.stream, hk, Rows.Close]
      simp only [List.length_cons] at h2
      exact ih (k + 1) m e (by omega) (by omega) (fun j a b => hbefore j (by omega) b) hm

/-- What `FindByID` returns, case by case. -/
theorem FindByID_eq (r : PostgresUserRepository) (f : Faults) (id : Int) :
    r.FindByID f id =
      match f.stmt with
      | some e => (none, some (GoError.driver e))
      | none =>
        match f.cursor 0 with
        | some e => (none, some (GoError.driver e))
        | none =>
          match r.db.users.filter (fun x => x.id = id) with
          | [] => (none, some (GoError.errorsNew "user not found"))
          | row :: rest =>
            match f.scan 0 with
            | some e => (none, some (GoError.driver e))
            | none =>
              match Rows.Close (Faults.stream f 1 rest) with
              | some err => (none, some err)
              | none => (some ⟨row.id, row.name, row.email⟩, none) := by
  unfold PostgresUserRepository.FindByID DB.QueryRowByID SqlRow.Scan
  cases hs : f.stmt with
  | some e => simp
  | none =>
    cases hc : f.cursor 0 with
    | some e =>
      cases hl : r.db.users.filter (fun x => decide (x.id = id)) <;> simp [Faults.stream, hc]
    | none =>
      cases hl : r.db.users.filter (fun x => decide (x.id = id)) with
      | nil => simp [Faults.stream, hc]
      | cons row rest =>
        cases hsc : f.scan 0 with
        | some e => simp [Faults.stream, hc, hsc]
        | none =>
          rcases Close_driver (Faults.stream f 1 rest) with hcl | ⟨e, hcl⟩
          · simp [Faults.stream, hc, hsc, hcl, User.scanned, Row.scanUser, User.zero]
          · simp [Faults.stream, hc, hsc, hcl]

/-- When a row has the id and the store does not fail, `FindByID` returns that row. -/
theorem FindByID_clean (r : PostgresUserRepository) (f : Faults) (id : Int) (row : Row)
    (hfind : r.db.users.find? (fun x => x.id = id) = some row)
    (hs : f.stmt = none)
    (hc : ∀ k, k ≤ (r.db.users.filter (fun x => x.id = id)).length → f.cursor k = none)
    (hsc : f.scan 0 = none) :
    r.FindByID f id = (some ⟨row.id, row.name, row.email⟩, none) := by
  obtain ⟨rest, hl⟩ := filter_of_find? _ _ _ hfind
  have hc0 : f.cursor 0 = none := hc 0 (Nat.zero_le _)
  have hclose : Rows.Close (Faults.stream f 1 rest) = none := by
    apply Close_stream_clean
    intro j _ h2
    apply hc j
    rw [hl]
    simp only [List.length_cons]
    omega
  rw [FindByID_eq]
  simp only [hs, hc0, hl, hsc, hclose]

/-- When a row has the id, `FindByID` returns that row or the error of a store failure, and
never the error "user not found". -/
theorem FindByID_found (r : PostgresUserRepository) (f : Faults) (id : Int) (row : Row)
    (hfind : r.db.users.find? (fun x => x.id = id) = some row) :
    r.FindByID f id = (some ⟨row.id, row.name, row.email⟩, none) ∨
      ∃ e, r.FindByID f id = (none, some (GoError.driver e)) := by
  obtain ⟨rest, hl⟩ := filter_of_find? _ _ _ hfind
  rw [FindByID_eq, hl]
  cases f.stmt with
  | some e => exact Or.inr ⟨e, rfl⟩
  | none =>
    cases f.cursor 0 with
    | some e => exact Or.inr ⟨e, rfl⟩
    | none =>
      cases f.scan 0 with
      | some e => exact Or.inr ⟨e, rfl⟩
      | none =>
        rcases Close_driver (Faults.stream f 1 rest) with hcl | ⟨e, hcl⟩
        · left
          simp only [hcl]
        · right
          exact ⟨e, by simp only [hcl]⟩

/-- The number of rows a statement with WHERE id = $n touches is zero exactly when no row has
that id. -/
theorem matching_eq_zero_iff (rows : List Row) (id : Int) :
    (rows.filter (fun r => r.id = id)).length = 0 ↔ ∀ row ∈ rows, row.id ≠ id := by
  rw [List.length_eq_zero, List.filter_eq_nil_iff]
  simp

/-- The error of `Update`, case by case. -/
theorem Update_err_eq (r : PostgresUserRepository) (f : Faults) (u : User) :
    (r.Update f u).2 =
      match f.stmt with
      | some e => some (GoError.driver e)
      | none =>
        match f.rowsAffected with
        | some e => some (GoError.driver e)
        | none =>
          if (r.db.users.filter (fun row => row.id = u.ID)).length = 0 then
            some (GoError.errorsNew "user not found")
          else none := by
  unfold PostgresUserRepository.Update DB.ExecUpdate Faults.result
  cases f.stmt with
  | some e => rfl
  | none =>
    cases f.rowsAffected with
    | some e => rfl
    | none =>
      by_cases h : (r.db.users.filter (fun row => row.id = u.ID)).length = 0 <;> simp [h]

/-- The error of `Delete`, case by case. -/
theorem Delete_err_eq (r : PostgresUserRepository) (f : Faults) (id : Int) :
    (r.Delete f id).2 =
      match f.stmt with
      | some e => some (GoError.driver e)
      | none =>
        match f.rowsAffected with
        | some e => some (GoError.driver e)
        | none =>
          if (r.db.users.filter (fun row => row.id = id)).length = 0 then
            some (GoError.errorsNew "user not found")
          else none := by
  unfold PostgresUserRepository.Delete DB.ExecDelete Faults.result
  cases f.stmt with
  | some e => rfl
  | none =>
    cases f.rowsAffected with
    | some e => rfl
    | none =>
      by_cases h : (r.db.users.filter (fun row => row.id = id)).length = 0 <;> simp [h]

/-- The store after `Update` whose statement was executed. -/
theorem Update_db_eq (r : PostgresUserRepository) (f : Faults) (u : User) (hs : f.stmt = none) :
    (r.Update f u).1.db.users =
      r.db.users.map (fun row => if row.id = u.ID then ⟨row.id, u.Name, u.Email⟩ else row) := by
  unfold PostgresUserRepository.Update DB.ExecUpdate Faults.result
  rw [hs]
  cases f.rowsAffected with
  | some e => rfl
  | none =>
    by_cases h : (r.db.users.filter (fun row => row.id = u.ID)).length = 0 <;> simp [h]

/-- The store after `Delete` whose statement was executed. -/
theorem Delete_db_eq (r : PostgresUserRepository) (f : Faults) (id : Int) (hs : f.stmt = none) :
    (r.Delete f id).1.db.users = r.db.users.filter (fun row => ¬ row.id = id) := by
  unfold PostgresUserRepository.Delete DB.ExecDelete Faults.result
  rw [hs]
  cases f.rowsAffected with
  | some e => rfl
  | none =>
    by_cases h : (r.db.users.filter (fun row => row.id = id)).length = 0 <;> simp [h]

/-- What `Create` returns, case by case. -/
theorem Create_eq (r : PostgresUserRepository) (f : Faults) (gen : Int) (u : User) :
    r.Create f gen u =
      match f.stmt with
      | some e => (r, u, some (GoError.driver e))
      | none =>
        if r.db.users.any (fun row => row.id = gen) then
          (r, u, some (GoError.driver uniqueViolation))
        else
          match f.cursor 0 with
          | some e => (⟨⟨r.db.users ++ [⟨gen, u.Name, u.Email⟩]⟩⟩, u, some (GoError.driver e))
          | none =>
            match f.scan 0 with
            | some e => (⟨⟨r.db.users ++ [⟨gen, u.Name, u.Email⟩]⟩⟩, u, some (GoError.driver e))
            | none =>
              match f.cursor 1 with
              | some e =>
                (⟨⟨r.db.users ++ [⟨gen, u.Name, u.Email⟩]⟩⟩, ⟨gen, u.Name, u.Email⟩,
                  some (GoError.driver e))
              | none =>
                (⟨⟨r.db.users ++ [⟨gen, u.Name, u.Email⟩]⟩⟩, ⟨gen, u.Name, u.Email⟩, none) := by
  unfold PostgresUserRepository.Create DB.QueryRowInsert
  cases f.stmt with
  | some e => simp [SqlRow.Scan, User.scannedID]
  | none =>
    by_cases hany : r.db.users.any (fun row => decide (row.id = gen)) = true
    · simp only [hany, if_true]
      simp [SqlRow.Scan, User.scannedID]
    · simp only [hany]
      cases hc : f.cursor 0 with
      | some e => simp [SqlRow.Scan, Faults.stream, hc, User.scannedID]
      | none =>
        cases hsc : f.scan 0 with
        | some e => simp [SqlRow.Scan, Faults.stream, hc, hsc, User.scannedID]
        | none =>
          cases hc1 : f.cursor 1 <;>
            simp [SqlRow.Scan, Faults.stream, hc, hsc, hc1, Rows.Close, User.scannedID]

/-- When `Create` returns no error, the row has been inserted under a fresh id and `u` carries
that id. -/
theorem Create_ok (r : PostgresUserRepository) (f : Faults) (gen : Int) (u : User)
    (hcreate : (r.Create f gen u).2.2 = none) :
    r.Create f gen u =
        (⟨⟨r.db.users ++ [⟨gen, u.Name, u.Email⟩]⟩⟩, ⟨gen, u.Name, u.Email⟩, none) ∧
      ∀ x ∈ r.db.users, x.id ≠ gen := by
  rw [Create_eq] at hcreate ⊢
  cases hs : f.stmt with
  | some e => simp [hs] at hcreate
  | none =>
    by_cases hany : r.db.users.any (fun row => decide (row.id = gen)) = true
    · simp [hs, hany] at hcreate
    · cases hc : f.cursor 0 with
      | some e => simp [hs, hany, hc] at hcreate
      | none =>
        cases hsc : f.scan 0 with
        | some e => simp [hs, hany, hc, hsc] at hcreate
        | none =>
          cases hc1 : f.cursor 1 with
          | some e => simp [hs, hany, hc, hsc, hc1] at hcreate
          | none =>
            refine ⟨by simp [hany], ?_⟩
            intro x hx hxg
            exact hany (List.any_eq_true.mpr ⟨x, hx, by simpa using hxg⟩)

/-- The selection by id finds the row just appended when no earlier row has the id. -/
theorem find?_append_fresh (rows : List Row) (row : Row)
    (hfresh : ∀ x ∈ rows, x.id ≠ row.id) :
    (rows ++ [row]).find? (fun x => x.id = row.id) = some row := by
  induction rows with
  | nil => simp [List.find?]
  | cons a rows ih =>
    have ha : a.id ≠ row.id := hfresh a (List.mem_cons_self a rows)
    have ih2 := ih (fun x hx => hfresh x (List.mem_cons_of_mem a hx))
    simpa [List.find?, ha] using ih2

/-- After the update statement, the selection by id finds a row with the new columns. -/
theorem find?_map_update (rows : List Row) (id : Int) (name email : GoString)
    (hrow : ∃ x ∈ rows, x.id = id) :
    (rows.map (fun x => if x.id = id then (⟨x.id, name, email⟩ : Row) else x)).find?
      (fun x => x.id = id) = some ⟨id, name, email⟩ := by
  induction rows with
  | nil => simp at hrow
  | cons a rows ih =>
    by_cases ha : a.id = id
    · simp [List.find?, ha]
    · have hrest : ∃ x ∈ rows, x.id = id := by
        obtain ⟨x, hx, hxid⟩ := hrow
        rcases List.mem_cons.mp hx with rfl | hx
        · exact absurd hxid ha
        · exact ⟨x, hx, hxid⟩
      simpa [List.find?, ha] using ih hrest

/-- The update statement leaves the id column as it was. -/
theorem map_update_ids (rows : List Row) (id : Int) (name email : GoString) :
    (rows.map (fun x => if x.id = id then (⟨x.id, name, email⟩ : Row) else x)).map Row.id
      = rows.map Row.id := by
  rw [List.map_map]
  apply List.map_congr_left
  intro x _
  by_cases hx : x.id = id <;> simp [hx]

/-- The loop of `FindAll` over a cursor that neither fails nor fails to scan: every row is
appended to the slice. -/
theorem FindAll_loop_clean (f : Faults) (rows : List Row) :
    ∀ (k : Nat) (acc : Slice User),
      (∀ j, k ≤ j → j ≤ k + rows.length → f.cursor j = none) →
      (∀ j, k ≤ j → j < k + rows.length → f.scan j = none) →
      PostgresUserRepository.FindAll.loop (Faults.stream f k rows) acc =
        (if rows = [] then acc
          else some (Slice.elems acc ++ rows.map (fun row => ⟨row.id, row.name, row.email⟩)),
          none) := by
  induction rows with
  | nil =>
    intro k acc hc _
    have hk : f.cursor k = none := hc k (Nat.le_refl k) (by simp)
    simp [Faults.stream, hk, PostgresUserRepository.FindAll.loop]
  | cons a rows ih =>
    intro k acc hc hs
    have hk : f.cursor k = none := hc k (Nat.le_refl k) (by simp)
    have hsk : f.scan k = none := hs k (Nat.le_refl k) (by simp)
    have hc2 : ∀ j, k + 1 ≤ j → j ≤ k + 1 + rows.length → f.cursor j = none := by
      intro j h1 h2
      apply hc j (by omega)
      simp only [List.length_cons]
      omega
    have hs2 : ∀ j, k + 1 ≤ j → j < k + 1 + rows.length → f.scan j = none := by
      intro j h1 h2
      apply hs j (by omega)
      simp only [List.length_cons]
      omega
    have step := ih (k + 1) (Slice.append acc (Row.scanUser a User.zero)) hc2 hs2
    simp only [Faults.stream, hk, hsk, PostgresUserRepository.FindAll.loop, step]
    by_cases hr : rows = []
    · simp [hr, Slice.append, Slice.elems, Row.scanUser, User.zero]
    · simp [hr, Slice.append, Slice.elems, Row.scanUser, User.zero]

/-! ## Auxiliary facts about `strconv` -/

/-- On a decimal digit the loop of `ParseUint` reads the digit value. -/
theorem digit_of_isDigit (c : Fin 256) (h : isDigit c = true) :
    ParseUint.digit c = some (c.val - 48) ∧ c.val - 48 < 10 := by
  simp only [isDigit, decide_eq_true_eq] at h
  unfold ParseUint.digit
  rw [if_pos h]
  exact ⟨rfl, by omega⟩

/-- On any other byte the loop of `ParseUint` reads nothing or a value that is no decimal
digit. -/
theorem digit_of_not_isDigit (c : Fin 256) (h : isDigit c = false) :
    ParseUint.digit c = none ∨ ∃ d, ParseUint.digit c = some d ∧ 10 ≤ d := by
  simp only [isDigit, decide_eq_false_iff_not] at h
  unfold ParseUint.digit
  rw [if_neg h]
  by_cases hl : 97 ≤ lower c.val ∧ lower c.val ≤ 122
  · right
    exact ⟨lower c.val - 97 + 10, by rw [if_pos hl], by omega⟩
  · left
    rw [if_neg hl]

/-- No digit: the number read so far. -/
theorem decimalFrom_nil (n : Nat) : decimalFrom n [] = n := rfl

/-- One more digit. -/
theorem decimalFrom_cons (n : Nat) (c : Fin 256) (cs : List (Fin 256)) :
    decimalFrom n (c :: cs) = decimalFrom (n * 10 + (c.val - 48)) cs := rfl

/-- Reading more digits does not make the number smaller. -/
theorem le_decimalFrom (cs : List (Fin 256)) : ∀ n : Nat, n ≤ decimalFrom n cs := by
  induction cs with
  | nil => intro n; exact Nat.le_refl n
  | cons c cs ih =>
    intro n
    have h := ih (n * 10 + (c.val - 48))
    show n ≤ decimalFrom (n * 10 + (c.val - 48)) cs
    omega

/-- A string of `k` digits read after `n` denotes less than `(n + 1) * 10 ^ k`. -/
theorem decimalFrom_lt (cs : List (Fin 256)) :
    ∀ n : Nat, (∀ c ∈ cs, isDigit c = true) → decimalFrom n cs < (n + 1) * 10 ^ cs.length := by
  induction cs with
  | nil =>
    intro n _
    show n < (n + 1) * 10 ^ 0
    omega
  | cons c cs ih =>
    intro n hall
    have hc : isDigit c = true := hall c (List.mem_cons_self c cs)
    simp only [isDigit, decide_eq_true_eq] at hc
    have h := ih (n * 10 + (c.val - 48)) (fun x hx => hall x (List.mem_cons_of_mem c hx))
    show decimalFrom (n * 10 + (c.val - 48)) cs < (n + 1) * 10 ^ (cs.length + 1)
    have hle : (n * 10 + (c.val - 48) + 1) * 10 ^ cs.length ≤ (n + 1) * 10 * 10 ^ cs.length :=
      Nat.mul_le_mul_right _ (by omega)
    have hpow : (n + 1) * 10 ^ (cs.length + 1) = (n + 1) * 10 * 10 ^ cs.length := by
      rw [Nat.pow_succ, Nat.mul_comm (10 ^ cs.length) 10, Nat.mul_assoc]
    rw [hpow]
    exact Nat.lt_of_lt_of_le h hle

/-- The loop of the fast path of `Atoi` yields the denoted number on a string of digits and
fails on every other string. -/
theorem Atoi_loop_eq (cs : List (Fin 256)) :
    ∀ n : Nat, Atoi.loop cs (n : Int) =
      if cs.all isDigit = true then some ((decimalFrom n cs : Nat) : Int) else none := by
  induction cs with
  | nil => intro n; simp [Atoi.loop, decimalFrom_nil]
  | cons c cs ih =>
    intro n
    have hlt := c.isLt
    by_cases hc : isDigit c = true
    · have hc2 := hc
      simp only [isDigit, decide_eq_true_eq] at hc2
      have hch : (c.val + 256 - 48) % 256 = c.val - 48 := by omega
      have hnot : ¬ (c.val - 48 > 9) := by omega
      have hcast : (n : Int) * 10 + ((c.val - 48 : Nat) : Int)
          = ((n * 10 + (c.val - 48) : Nat) : Int) := by push_cast; ring
      simp only [Atoi.loop, hch, hnot, if_false, hcast, ih, List.all_cons, hc, Bool.true_and,
        decimalFrom_cons]
    · have hc2 := hc
      simp only [isDigit, decide_eq_true_eq] at hc2
      have hch : (c.val + 256 - 48) % 256 > 9 := by omega
      have hall : ¬ ((c :: cs).all isDigit = true) := by simp [hc]
      rw [if_neg hall]
      show (if (c.val + 256 - 48) % 256 > 9 then none
        else Atoi.loop cs ((n : Int) * 10 + (((c.val + 256 - 48) % 256 : Nat) : Int))) = none
      rw [if_pos hch]

/-- The loop of `ParseUint` reports a range error as soon as the digits read so far denote
more than `maxUint64`, a syntax error at the first byte that is no digit, and the denoted
number otherwise. -/
theorem ParseUint_loop_eq (cs : List (Fin 256)) :
    ∀ n : Nat, n < 2 ^ 64 →
      ParseUint.loop (maxUint64 / 10 + 1) (2 ^ 64 - 1) cs n =
        if 2 ^ 64 ≤ decimalFrom n (cs.takeWhile isDigit) then
          (2 ^ 64 - 1, some NumError.ErrRange)
        else if cs.all isDigit = true then (decimalFrom n cs, none)
        else (0, some NumError.ErrSyntax) := by
  induction cs with
  | nil =>
    intro n hn
    have h : ¬ 2 ^ 64 ≤ decimalFrom n (List.takeWhile isDigit []) := by
      show ¬ 2 ^ 64 ≤ n
      omega
    rw [if_neg h]
    rfl
  | cons c cs ih =>
    intro n hn
    by_cases hc : isDigit c = true
    · obtain ⟨hd, hd10⟩ := digit_of_isDigit c hc
      have hcut : maxUint64 / 10 + 1 = 1844674407370955162 := by decide
      simp only [ParseUint.loop, hd, List.takeWhile_cons, hc, if_true, decimalFrom_cons,
        List.all_cons, Bool.true_and]
      have hge : ¬ (c.val - 48 ≥ 10) := by omega
      rw [if_neg hge]
      by_cases hover : n ≥ maxUint64 / 10 + 1
      · rw [if_pos hover]
        have hbig := le_decimalFrom (cs.takeWhile isDigit) (n * 10 + (c.val - 48))
        have : 2 ^ 64 ≤ decimalFrom (n * 10 + (c.val - 48)) (cs.takeWhile isDigit) := by
          rw [hcut] at hover
          omega
        rw [if_pos this]
      · rw [if_neg hover]
        rw [hcut] at hover
        have h10 : n * 10 % 2 ^ 64 = n * 10 := by omega
        by_cases hsum : n * 10 + (c.val - 48) < 2 ^ 64
        · have h1 : (n * 10 % 2 ^ 64 + (c.val - 48)) % 2 ^ 64 = n * 10 + (c.val - 48) := by
            omega
          have hno : ¬ ((n * 10 % 2 ^ 64 + (c.val - 48)) % 2 ^ 64 < n * 10 % 2 ^ 64 ∨
              (n * 10 % 2 ^ 64 + (c.val - 48)) % 2 ^ 64 > 2 ^ 64 - 1) := by omega
          simp only [hno, if_false]
          rw [h1]
          exact ih _ hsum
        · have hyes : (n * 10 % 2 ^ 64 + (c.val - 48)) % 2 ^ 64 < n * 10 % 2 ^ 64 ∨
              (n * 10 % 2 ^ 64 + (c.val - 48)) % 2 ^ 64 > 2 ^ 64 - 1 := by omega
          simp only [hyes, if_true]
          have hbig := le_decimalFrom (cs.takeWhile isDigit) (n * 10 + (c.val - 48))
          have : 2 ^ 64 ≤ decimalFrom (n * 10 + (c.val - 48)) (cs.takeWhile isDigit) := by
            omega
          rw [if_pos this]
    · have hcf : isDigit c = false := by simpa using hc
      have hrun : List.takeWhile isDigit (c :: cs) = [] := by simp [List.takeWhile_cons, hcf]
      have hsmall : ¬ 2 ^ 64 ≤ decimalFrom n (List.takeWhile isDigit (c :: cs)) := by
        rw [hrun]
        show ¬ 2 ^ 64 ≤ n
        omega
      have hall : ¬ ((c :: cs).all isDigit = true) := by simp [hcf]
      rw [if_neg hsmall, if_neg hall]
      rcases digit_of_not_isDigit c hcf with hd | ⟨d, hd, hd10⟩
      · simp only [ParseUint.loop, hd]
      · simp only [ParseUint.loop, hd]
        rw [if_pos hd10]

/-- The function `ParseUint` on the whole string. -/
theorem ParseUint_eq (s : GoString) :
    ParseUint s =
      if s = [] then (0, some NumError.ErrSyntax)
      else if 2 ^ 64 ≤ decimal (s.takeWhile isDigit) then (2 ^ 64 - 1, some NumError.ErrRange)
      else if s.all isDigit = true then (decimal s, none)
      else (0, some NumError.ErrSyntax) := by
  unfold ParseUint
  by_cases hs : s = []
  · rw [if_pos hs, if_pos hs]
  · rw [if_neg hs, if_neg hs]
    have hmax : (2 ^ intSize % 2 ^ 64 + 2 ^ 64 - 1) % 2 ^ 64 = 2 ^ 64 - 1 := by decide
    simp only [hmax]
    exact ParseUint_loop_eq s 0 (by decide)

/-- The signed result of `ParseInt` from the unsigned one. -/
theorem ParseInt_eq (c : Fin 256) (cs : List (Fin 256)) :
    (ParseInt (c :: cs)).1 = atoiValue (c :: cs) := by
  have hu : (if c = 43 then cs else if c = 45 then cs else c :: cs) = unsigned (c :: cs) := by
    unfold unsigned
    by_cases h1 : c = 43
    · simp [h1]
    · by_cases h2 : c = 45 <;> simp [h1, h2]
  have hn : decide (c ≠ 43 ∧ c = 45) = negative (c :: cs) := by
    unfold negative
    by_cases h2 : c = 45
    · simp [h2]
    · simp [h2]
  unfold ParseInt atoiValue digitRun literalValue
  simp only [hu, hn]
  rw [ParseUint_eq]
  generalize unsigned (c :: cs) = us
  generalize negative (c :: cs) = neg
  by_cases hus : us = []
  · subst hus
    simp [decimal, decimalFrom_nil]
  · rw [if_neg hus]
    by_cases hbig : 2 ^ 64 ≤ decimal (us.takeWhile isDigit)
    · rw [if_pos hbig, if_pos hbig]
      cases neg <;> simp [intSize]
    · rw [if_neg hbig, if_neg hbig]
      by_cases hall : us.all isDigit = true
      · rw [if_pos hall, if_pos ⟨hus, hall⟩]
        simp only [intSize, clampInt]
        cases neg
        · simp only [Bool.false_eq_true, false_and, and_false, if_false, true_and]
          split_ifs <;> simp <;> omega
        · simp only [Bool.true_eq_false, false_and, and_false, if_false, true_and, if_true]
          split_ifs <;> simp <;> omega
      · rw [if_neg hall, if_neg (fun h => hall h.2)]


/-- A run of at most 18 digits denotes less than `10 ^ 18`. -/
theorem decimal_lt_of_short (ds : List (Fin 256)) (hall : ∀ c ∈ ds, isDigit c = true)
    (hlen : ds.length ≤ 18) : decimal ds < 10 ^ 18 := by
  have h := decimalFrom_lt ds 0 hall
  have hp : 10 ^ ds.length ≤ 10 ^ 18 := Nat.pow_le_pow_right (by decide) hlen
  unfold decimal
  omega

/-- A leading run is no longer than the string. -/
theorem length_takeWhile_le_length {α : Type} (p : α → Bool) (l : List α) :
    (l.takeWhile p).length ≤ l.length := by
  induction l with
  | nil => exact Nat.le_refl 0
  | cons a l ih =>
    rw [List.takeWhile_cons]
    split
    · simp only [List.length_cons]; omega
    · simp

/-- The value of `Atoi` on a string of fewer than 19 bytes: the fast path. -/
theorem Atoi_fast_eq (c : Fin 256) (cs : List (Fin 256)) (hlen : (c :: cs).length < 19) :
    (Atoi (c :: cs)).1 = atoiValue (c :: cs) := by
  have hu : (if c = 45 ∨ c = 43 then cs else c :: cs) = unsigned (c :: cs) := by
    unfold unsigned
    by_cases h1 : c = 43
    · simp [h1]
    · by_cases h2 : c = 45 <;> simp [h1, h2]
  have hn : (c = 45) ↔ negative (c :: cs) = true := by
    unfold negative
    simp
  have hulen : (unsigned (c :: cs)).length ≤ 18 := by
    rw [← hu]
    simp only [List.length_cons] at hlen
    split_ifs
    · omega
    · simp only [List.length_cons]; omega
  have hsign : ¬ (c = 45 ∨ c = 43) → unsigned (c :: cs) ≠ [] := by
    intro h
    rw [← hu, if_neg h]
    exact List.cons_ne_nil c cs
  have hcond : (intSize = 32 ∧ 0 < (c :: cs).length ∧ (c :: cs).length < 10) ∨
      (intSize = 64 ∧ 0 < (c :: cs).length ∧ (c :: cs).length < 19) :=
    Or.inr ⟨rfl, by simp, hlen⟩
  have hrun : decimal (digitRun (c :: cs)) < 10 ^ 18 := by
    apply decimal_lt_of_short
    · intro x hx
      exact List.mem_takeWhile_imp hx
    · exact Nat.le_trans (length_takeWhile_le_length _ _) hulen
  have hsmall : ¬ 2 ^ 64 ≤ decimal (digitRun (c :: cs)) := by omega
  have hrhs : atoiValue (c :: cs) =
      if unsigned (c :: cs) ≠ [] ∧ (unsigned (c :: cs)).all isDigit = true then
        literalValue (c :: cs) else 0 := by
    unfold atoiValue
    rw [if_neg hsmall]
    by_cases hl : unsigned (c :: cs) ≠ [] ∧ (unsigned (c :: cs)).all isDigit = true
    · rw [if_pos hl, if_pos hl]
      have hdec := decimal_lt_of_short _ (by simpa using hl.2) hulen
      unfold clampInt literalValue
      split_ifs <;> omega
    · rw [if_neg hl, if_neg hl]
  have hloop := Atoi_loop_eq (unsigned (c :: cs)) 0
  rw [Nat.cast_zero] at hloop
  rw [hrhs]
  unfold Atoi
  simp only [hcond, if_true, hu, hloop]
  by_cases hall : (unsigned (c :: cs)).all isDigit = true
  · by_cases hempty : unsigned (c :: cs) = []
    · have hs : c = 45 ∨ c = 43 := by
        by_contra h
        exact hsign h hempty
      simp [hempty, hs]
    · have hl : ¬ ((c = 45 ∨ c = 43) ∧ (unsigned (c :: cs)).length < 1) := by
        intro h
        exact hempty (List.length_eq_zero.mp (by omega))
      have hlit : unsigned (c :: cs) ≠ [] ∧ (unsigned (c :: cs)).all isDigit = true :=
        ⟨hempty, hall⟩
      rw [if_neg hl, if_pos hlit, if_pos hall]
      unfold literalValue decimal
      by_cases hneg : c = 45
      · simp only [if_pos hneg, if_pos (hn.mp hneg)]
      · simp only [if_neg hneg, if_neg (fun h => hneg (hn.mpr h))]
  · have hlit : ¬ (unsigned (c :: cs) ≠ [] ∧ (unsigned (c :: cs)).all isDigit = true) :=
      fun h => hall h.2
    rw [if_neg hlit, if_neg hall]
    split_ifs <;> rfl

/-- The value of `Atoi` on every non-empty string. -/
theorem Atoi_eq (s : GoString) (hs : s ≠ []) : (Atoi s).1 = atoiValue s := by
  cases s with
  | nil => exact absurd rfl hs
  | cons c cs =>
    by_cases hlen : (c :: cs).length < 19
    · exact Atoi_fast_eq c cs hlen
    · have hcond : ¬ ((intSize = 32 ∧ 0 < (c :: cs).length ∧ (c :: cs).length < 10) ∨
          (intSize = 64 ∧ 0 < (c :: cs).length ∧ (c :: cs).length < 19)) := by
        intro h
        rcases h with h | h
        · exact absurd h.1 (by decide)
        · exact hlen h.2.2
      unfold Atoi
      simp only [hcond, if_false]
      exact ParseInt_eq c cs

/-! ## Validation -/

/-- C1: `Validate` returns the error "name is required" exactly when the name is empty, the
error "email is required" exactly when the name is non-empty and the email is empty, and no
error exactly when both are non-empty; hence it fails if and only if the name or the email is
empty, whatever the format or the length of non-empty fields. -/
theorem Validate_spec (u : User) :
    (u.Validate = some (GoError.errorsNew "name is required") ↔ u.Name = []) ∧
    (u.Validate = some (GoError.errorsNew "email is required") ↔ u.Name ≠ [] ∧ u.Email = []) ∧
    (u.Validate = none ↔ u.Name ≠ [] ∧ u.Email ≠ []) ∧
    (u.Validate ≠ none ↔ u.Name = [] ∨ u.Email = []) := by
  unfold User.Validate
  by_cases hn : u.Name = [] <;> by_cases he : u.Email = [] <;> simp [hn, he]

/-! ## Reading one user -/

/-- C2: `FindByID` returns the error "user not found" and no user when the query runs and no
row has the id; it returns the error of the driver unchanged and no user when the statement
fails, when the cursor fails before the first row, when the scan of the row fails, or when
the cursor fails while the query is run to completion after the scan; and otherwise, when
none of this happens, it returns no error and the user whose fields are the columns of the
first row with that id. -/
theorem FindByID_spec (r : PostgresUserRepository) (f : Faults) (id : Int) :
    (f.stmt = none → f.cursor 0 = none → (∀ row ∈ r.db.users, row.id ≠ id) →
      r.FindByID f id = (none, some (GoError.errorsNew "user not found"))) ∧
    (∀ e, f.stmt = some e → r.FindByID f id = (none, some (GoError.driver e))) ∧
    (∀ e, f.stmt = none → f.cursor 0 = some e →
      r.FindByID f id = (none, some (GoError.driver e))) ∧
    (∀ e row, f.stmt = none → f.cursor 0 = none →
      r.db.users.find? (fun x => x.id = id) = some row → f.scan 0 = some e →
      r.FindByID f id = (none, some (GoError.driver e))) ∧
    (∀ e row m, f.stmt = none →
      r.db.users.find? (fun x => x.id = id) = some row → f.scan 0 = none →
      1 ≤ m → m ≤ (r.db.users.filter (fun x => x.id = id)).length →
      (∀ j, j < m → f.cursor j = none) → f.cursor m = some e →
      r.FindByID f id = (none, some (GoError.driver e))) ∧
    (∀ row, f.stmt = none →
      (∀ k, k ≤ (r.db.users.filter (fun x => x.id = id)).length → f.cursor k = none) →
      r.db.users.find? (fun x => x.id = id) = some row → f.scan 0 = none →
      r.FindByID f id = (some ⟨row.id, row.name, row.email⟩, none) ∧
        row.id = id ∧ row ∈ r.db.users) := by
  refine ⟨?_, ?_, ?_, ?_, ?_, ?_⟩
  · intro hs hc hno
    have hnil : r.db.users.filter (fun x => decide (x.id = id)) = [] := by
      rw [List.filter_eq_nil_iff]
      intro x hx
      simpa using hno x hx
    rw [FindByID_eq]
    simp only [hs, hc, hnil]
  · intro e hs
    rw [FindByID_eq]
    simp only [hs]
  · intro e hs hc
    rw [FindByID_eq]
    simp only [hs, hc]
  · intro e row hs hc hfind hsc
    obtain ⟨rest, hl⟩ := filter_of_find? _ _ _ hfind
    rw [FindByID_eq]
    simp only [hs, hc, hl, hsc]
  · intro e row m hs hfind hsc h1 hm hbefore hfail
    obtain ⟨rest, hl⟩ := filter_of_find? _ _ _ hfind
    have hc0 : f.cursor 0 = none := hbefore 0 (by omega)
    have hclose : Rows.Close (Faults.stream f 1 rest) = some (GoError.driver e) := by
      apply Close_stream_broken f rest 1 m e h1 _ (fun j _ hj => hbefore j hj) hfail
      rw [hl] at hm
      simp only [List.length_cons] at hm
      omega
    rw [FindByID_eq]
    simp only [hs, hc0, hl, hsc, hclose]
  · intro row hs hc hfind hsc
    refine ⟨FindByID_clean r f id row hfind hs hc hsc, ?_, List.mem_of_find?_eq_some hfind⟩
    simpa using List.find?_some hfind

/-- A table with one row is searched for the id of that row and for another id; and the
search for the id of that row fails when the store fails after delivering the row. -/
theorem FindByID_spec_witness :
    PostgresUserRepository.FindByID ⟨⟨[⟨7, [65], [66]⟩]⟩⟩ Faults.clean 7
        = (some ⟨7, [65], [66]⟩, none) ∧
      PostgresUserRepository.FindByID ⟨⟨[⟨7, [65], [66]⟩]⟩⟩ Faults.clean 8
        = (none, some (GoError.errorsNew "user not found")) ∧
      PostgresUserRepository.FindByID ⟨⟨[⟨7, [65], [66]⟩]⟩⟩ lostAfterOneRow 7
        = (none, some (GoError.driver ⟨8006⟩)) :=
  ⟨((FindByID_spec ⟨⟨[⟨7, [65], [66]⟩]⟩⟩ Faults.clean 7).2.2.2.2.2
      ⟨7, [65], [66]⟩ rfl (fun _ _ => rfl) rfl rfl).1,
    (FindByID_spec ⟨⟨[⟨7, [65], [66]⟩]⟩⟩ Faults.clean 8).1 rfl rfl (by decide),
    (FindByID_spec ⟨⟨[⟨7, [65], [66]⟩]⟩⟩ lostAfterOneRow 7).2.2.2.2.1
      ⟨8006⟩ ⟨7, [65], [66]⟩ 1 rfl rfl rfl (by decide) (by decide)
      (fun j hj => by
        have h0 : j = 0 := by omega
        subst h0
        rfl) rfl⟩

/-! ## Creating a user -/

/-- C3: `Create` validates nothing.  When the insert succeeds, that is, the statement is
executed, the store returns the generated id `gen` and the query runs to completion, `Create`
returns no error, leaves `u` with `ID = gen` and with its name and email unchanged, and the
table has gained exactly the row `(gen, u.Name, u.Email)`.  When the insert fails, `Create`
returns the error of the store: with `u` and the table unchanged when the statement fails or
`gen` is already a primary key, with `u` unchanged when the returned row cannot be read, and
with `u.ID` already set to `gen` when the store fails after delivering the returned row. -/
theorem Create_spec (r : PostgresUserRepository) (f : Faults) (gen : Int) (u : User) :
    (f.stmt = none → (∀ row ∈ r.db.users, row.id ≠ gen) → f.cursor 0 = none →
      f.scan 0 = none → f.cursor 1 = none →
      r.Create f gen u =
        (⟨⟨r.db.users ++ [⟨gen, u.Name, u.Email⟩]⟩⟩, ⟨gen, u.Name, u.Email⟩, none)) ∧
    (∀ e, f.stmt = some e → r.Create f gen u = (r, u, some (GoError.driver e))) ∧
    (f.stmt = none → (∃ row ∈ r.db.users, row.id = gen) →
      r.Create f gen u = (r, u, some (GoError.driver uniqueViolation))) ∧
    (∀ e, f.stmt = none → (∀ row ∈ r.db.users, row.id ≠ gen) → f.cursor 0 = some e →
      (r.Create f gen u).2 = (u, some (GoError.driver e))) ∧
    (∀ e, f.stmt = none → (∀ row ∈ r.db.users, row.id ≠ gen) → f.cursor 0 = none →
      f.scan 0 = some e → (r.Create f gen u).2 = (u, some (GoError.driver e))) ∧
    (∀ e, f.stmt = none → (∀ row ∈ r.db.users, row.id ≠ gen) → f.cursor 0 = none →
      f.scan 0 = none → f.cursor 1 = some e →
      (r.Create f gen u).2 = (⟨gen, u.Name, u.Email⟩, some (GoError.driver e))) := by
  have hfalse : (∀ row ∈ r.db.users, row.id ≠ gen) →
      r.db.users.any (fun row => decide (row.id = gen)) = false := by
    intro hfresh
    rw [List.any_eq_false]
    intro x hx
    simpa using hfresh x hx
  rw [Create_eq]
  refine ⟨?_, ?_, ?_, ?_, ?_, ?_⟩
  · intro hs hfresh hc hsc hc1
    simp [hs, hfalse hfresh, hc, hsc, hc1]
  · intro e hs
    simp [hs]
  · intro hs hdup
    have hany : r.db.users.any (fun row => decide (row.id = gen)) = true := by
      rw [List.any_eq_true]
      obtain ⟨x, hx, hxg⟩ := hdup
      exact ⟨x, hx, by simpa using hxg⟩
    simp [hs, hany]
  · intro e hs hfresh hc
    simp [hs, hfalse hfresh, hc]
  · intro e hs hfresh hc hsc
    simp [hs, hfalse hfresh, hc, hsc]
  · intro e hs hfresh hc hsc hc1
    simp [hs, hfalse hfresh, hc, hsc, hc1]

/-- A user with an empty name and an empty email is inserted into an empty table; and the
same insert returns the error of the store, with the id written, when the store fails after
delivering the returned row. -/
theorem Create_spec_witness :
    PostgresUserRepository.Create ⟨⟨[]⟩⟩ Faults.clean 1 ⟨0, [], []⟩
        = (⟨⟨[⟨1, [], []⟩]⟩⟩, ⟨1, [], []⟩, none) ∧
      (PostgresUserRepository.Create ⟨⟨[]⟩⟩ lostAfterOneRow 1 ⟨0, [], []⟩).2
        = (⟨1, [], []⟩, some (GoError.driver ⟨8006⟩)) :=
  ⟨(Create_spec ⟨⟨[]⟩⟩ Faults.clean 1 ⟨0, [], []⟩).1 rfl (by decide) rfl rfl rfl,
    (Create_spec ⟨⟨[]⟩⟩ lostAfterOneRow 1 ⟨0, [], []⟩).2.2.2.2.2 ⟨8006⟩ rfl (by decide)
      rfl rfl rfl⟩

/-! ## Updating and deleting -/

/-- C4: `Update` returns the error "user not found" if and only if the statement was executed,
the count of affected rows was read, and that count is zero, which is the case exactly when no
row has the id `u.ID`; it returns no error when at least one row was affected; and it returns
the error of the store unchanged when executing the statement or reading the count fails. -/
theorem Update_spec (r : PostgresUserRepository) (f : Faults) (u : User) :
    ((r.Update f u).2 = some (GoError.errorsNew "user not found") ↔
      f.stmt = none ∧ f.rowsAffected = none ∧
        (r.db.users.filter (fun row => row.id = u.ID)).length = 0) ∧
    ((r.db.users.filter (fun row => row.id = u.ID)).length = 0 ↔
      ∀ row ∈ r.db.users, row.id ≠ u.ID) ∧
    (f.stmt = none → f.rowsAffected = none →
      0 < (r.db.users.filter (fun row => row.id = u.ID)).length → (r.Update f u).2 = none) ∧
    (∀ e, f.stmt = some e → (r.Update f u).2 = some (GoError.driver e)) ∧
    (∀ e, f.stmt = none → f.rowsAffected = some e →
      (r.Update f u).2 = some (GoError.driver e)) := by
  rw [Update_err_eq]
  refine ⟨?_, matching_eq_zero_iff _ _, ?_, ?_, ?_⟩
  · cases f.stmt with
    | some e => simp
    | none =>
      cases f.rowsAffected with
      | some e => simp
      | none => simp
  · intro hs hr hpos
    simp [hs, hr, Nat.pos_iff_ne_zero.mp hpos]
  · intro e hs
    simp [hs]
  · intro e hs hr
    simp [hs, hr]

/-- A row is updated, and a missing row is not found. -/
theorem Update_spec_witness :
    (PostgresUserRepository.Update ⟨⟨[⟨7, [65], [66]⟩]⟩⟩ Faults.clean ⟨7, [67], [68]⟩).2 = none ∧
      (PostgresUserRepository.Update ⟨⟨[⟨7, [65], [66]⟩]⟩⟩ Faults.clean ⟨8, [67], [68]⟩).2
        = some (GoError.errorsNew "user not found") :=
  ⟨(Update_spec ⟨⟨[⟨7, [65], [66]⟩]⟩⟩ Faults.clean ⟨7, [67], [68]⟩).2.2.1 rfl rfl (by decide),
    (Update_spec ⟨⟨[⟨7, [65], [66]⟩]⟩⟩ Faults.clean ⟨8, [67], [68]⟩).1.mpr
      ⟨rfl, rfl, by decide⟩⟩

/-- C5: in a store that holds a row with the id, and without store failure, the first
`Delete(id)` returns no error and removes every row with that id while leaving the other rows
as they were, and the second `Delete(id)` returns the error "user not found"; in general
`Delete` returns that error exactly when the statement was executed, the count of affected
rows was read, and the count is zero. -/
theorem Delete_twice (r : PostgresUserRepository) (f₁ f₂ : Faults) (id : Int)
    (hrow : ∃ row ∈ r.db.users, row.id = id)
    (h₁ : f₁.stmt = none ∧ f₁.rowsAffected = none)
    (h₂ : f₂.stmt = none ∧ f₂.rowsAffected = none) :
    (r.Delete f₁ id).2 = none ∧
    (r.Delete f₁ id).1.db.users = r.db.users.filter (fun row => ¬ row.id = id) ∧
    (∀ row ∈ (r.Delete f₁ id).1.db.users, row.id ≠ id) ∧
    ((r.Delete f₁ id).1.Delete f₂ id).2 = some (GoError.errorsNew "user not found") ∧
    (∀ (q : PostgresUserRepository) (g : Faults) (i : Int),
      (q.Delete g i).2 = some (GoError.errorsNew "user not found") ↔
        g.stmt = none ∧ g.rowsAffected = none ∧
          (q.db.users.filter (fun row => row.id = i)).length = 0) := by
  have hgone : ∀ row ∈ (r.Delete f₁ id).1.db.users, row.id ≠ id := by
    rw [Delete_db_eq r f₁ id h₁.1]
    intro row hmem
    simpa using (List.mem_filter.mp hmem).2
  refine ⟨?_, Delete_db_eq r f₁ id h₁.1, hgone, ?_, ?_⟩
  · rw [Delete_err_eq]
    have hne : (r.db.users.filter (fun row => row.id = id)).length ≠ 0 := by
      rw [Ne, matching_eq_zero_iff]
      intro hall
      obtain ⟨row, hmem, hid⟩ := hrow
      exact hall row hmem hid
    simp only [h₁.1, h₁.2]
    rw [if_neg hne]
  · rw [Delete_err_eq]
    simp only [h₂.1, h₂.2]
    rw [if_pos ((matching_eq_zero_iff _ _).mpr hgone)]
  · intro q g i
    rw [Delete_err_eq]
    cases g.stmt with
    | some e => simp
    | none =>
      cases g.rowsAffected with
      | some e => simp
      | none => simp

/-- The only row of a table is deleted twice. -/
theorem Delete_twice_witness :
    (PostgresUserRepository.Delete ⟨⟨[⟨7, [65], [66]⟩]⟩⟩ Faults.clean 7).2 = none ∧
      ((PostgresUserRepository.Delete ⟨⟨[⟨7, [65], [66]⟩]⟩⟩ Faults.clean 7).1.Delete
        Faults.clean 7).2 = some (GoError.errorsNew "user not found") :=
  have h := Delete_twice ⟨⟨[⟨7, [65], [66]⟩]⟩⟩ Faults.clean Faults.clean 7
    ⟨⟨7, [65], [66]⟩, by simp, rfl⟩ ⟨rfl, rfl⟩ ⟨rfl, rfl⟩
  ⟨h.1, h.2.2.2.1⟩

/-! ## Round trips -/

/-- C6: if `Create(u)` succeeds and leaves the user `(r.Create f gen u).2.1`, which is `u` with
the generated id, then a `FindByID` of that id issued next, during which the store does not
fail, returns no error and a user equal to it in `ID`, `Name` and `Email`.  Whatever the store
does during the read, `FindByID` returns that user or the error of a store failure, never
another user and never "user not found".  This holds for every `u`, in particular for one
with non-empty name and email. -/
theorem Create_FindByID (r : PostgresUserRepository) (f f₂ : Faults) (gen : Int) (u : User)
    (hcreate : (r.Create f gen u).2.2 = none)
    (hread : f₂.stmt = none ∧ (∀ k, f₂.cursor k = none) ∧ f₂.scan 0 = none) :
    (r.Create f gen u).2.1 = ⟨gen, u.Name, u.Email⟩ ∧
    (r.Create f gen u).1.FindByID f₂ (r.Create f gen u).2.1.ID
      = (some (r.Create f gen u).2.1, none) ∧
    (∀ g : Faults,
      (r.Create f gen u).1.FindByID g (r.Create f gen u).2.1.ID
          = (some (r.Create f gen u).2.1, none) ∨
        ∃ e, (r.Create f gen u).1.FindByID g (r.Create f gen u).2.1.ID
          = (none, some (GoError.driver e))) := by
  obtain ⟨hval, hfresh⟩ := Create_ok r f gen u hcreate
  have hfind := find?_append_fresh r.db.users ⟨gen, u.Name, u.Email⟩ hfresh
  rw [hval]
  refine ⟨rfl, ?_, ?_⟩
  · exact FindByID_clean ⟨⟨r.db.users ++ [⟨gen, u.Name, u.Email⟩]⟩⟩ f₂ gen
      ⟨gen, u.Name, u.Email⟩ hfind hread.1 (fun k _ => hread.2.1 k) hread.2.2
  · intro g
    exact FindByID_found ⟨⟨r.db.users ++ [⟨gen, u.Name, u.Email⟩]⟩⟩ g gen
      ⟨gen, u.Name, u.Email⟩ hfind

/-- Ana is created in a table that holds one other row and is read back. -/
theorem Create_FindByID_witness :
    (PostgresUserRepository.Create ⟨⟨[⟨1, [66], [67]⟩]⟩⟩ Faults.clean 2
        ⟨0, [65, 110, 97], [97, 64, 120]⟩).1.FindByID Faults.clean 2
      = (some ⟨2, [65, 110, 97], [97, 64, 120]⟩, none) :=
  (Create_FindByID ⟨⟨[⟨1, [66], [67]⟩]⟩⟩ Faults.clean Faults.clean 2
    ⟨0, [65, 110, 97], [97, 64, 120]⟩ rfl ⟨rfl, fun _ => rfl, rfl⟩).2.1

/-- C7: if `Update(u)` succeeds, which requires a row with the id `u.ID`, then a `FindByID` of
`u.ID` issued next, during which the store does not fail, returns no error and the user with
`ID = u.ID`, `Name = u.Name` and `Email = u.Email`; and `Update` leaves the id of every row as
it was.  Whatever the store does during the read, `FindByID` returns that user or the error
of a store failure, never the old values and never "user not found".  This holds for every
`u`, in particular for one with non-empty name and email. -/
theorem Update_FindByID (r : PostgresUserRepository) (f f₂ : Faults) (u : User)
    (hupdate : (r.Update f u).2 = none)
    (hread : f₂.stmt = none ∧ (∀ k, f₂.cursor k = none) ∧ f₂.scan 0 = none) :
    (∃ row ∈ r.db.users, row.id = u.ID) ∧
    (r.Update f u).1.FindByID f₂ u.ID = (some ⟨u.ID, u.Name, u.Email⟩, none) ∧
    (r.Update f u).1.db.users.map Row.id = r.db.users.map Row.id ∧
    (∀ g : Faults,
      (r.Update f u).1.FindByID g u.ID = (some ⟨u.ID, u.Name, u.Email⟩, none) ∨
        ∃ e, (r.Update f u).1.FindByID g u.ID = (none, some (GoError.driver e))) := by
  rw [Update_err_eq] at hupdate
  cases hs : f.stmt with
  | some e => simp [hs] at hupdate
  | none =>
    cases hr : f.rowsAffected with
    | some e => simp [hs, hr] at hupdate
    | none =>
      have hne : (r.db.users.filter (fun row => row.id = u.ID)).length ≠ 0 := by
        intro h0
        simp [hs, hr, h0] at hupdate
      have hrow : ∃ row ∈ r.db.users, row.id = u.ID := by
        by_contra hno
        apply hne
        rw [matching_eq_zero_iff]
        intro row hmem hid
        exact hno ⟨row, hmem, hid⟩
      have hfind : (r.Update f u).1.db.users.find? (fun x => x.id = u.ID)
          = some ⟨u.ID, u.Name, u.Email⟩ := by
        rw [Update_db_eq r f u hs]
        exact find?_map_update r.db.users u.ID u.Name u.Email hrow
      refine ⟨hrow, ?_, ?_, ?_⟩
      · exact FindByID_clean (r.Update f u).1 f₂ u.ID ⟨u.ID, u.Name, u.Email⟩ hfind
          hread.1 (fun k _ => hread.2.1 k) hread.2.2
      · rw [Update_db_eq r f u hs]
        exact map_update_ids r.db.users u.ID u.Name u.Email
      · intro g
        exact FindByID_found (r.Update f u).1 g u.ID ⟨u.ID, u.Name, u.Email⟩ hfind

/-- The second of two rows is renamed and read back. -/
theorem Update_FindByID_witness :
    (PostgresUserRepository.Update ⟨⟨[⟨1, [66], [67]⟩, ⟨2, [65], [68]⟩]⟩⟩ Faults.clean
        ⟨2, [65, 110, 97], [97, 64, 120]⟩).1.FindByID Faults.clean 2
      = (some ⟨2, [65, 110, 97], [97, 64, 120]⟩, none) :=
  (Update_FindByID ⟨⟨[⟨1, [66], [67]⟩, ⟨2, [65], [68]⟩]⟩⟩ Faults.clean Faults.clean
    ⟨2, [65, 110, 97], [97, 64, 120]⟩ rfl ⟨rfl, fun _ => rfl, rfl⟩).2.1

/-! ## Listing -/

/-- C8: when the query succeeds, that is, the statement is issued and its cursor runs through
the whole result set, and every row scan succeeds, `FindAll` returns no error and a slice
with exactly one user per row of the table, in the order in which the store yields the rows,
each built from the columns `id, name, email`; on an empty table it returns the nil slice, of
length 0, and no error. -/
theorem FindAll_spec (r : PostgresUserRepository) (f : Faults)
    (hquery : f.stmt = none ∧ ∀ k, k ≤ r.db.users.length → f.cursor k = none)
    (hscan : ∀ k, k < r.db.users.length → f.scan k = none) :
    (r.FindAll f).2 = none ∧
    Slice.elems (r.FindAll f).1 = r.db.users.map (fun row => ⟨row.id, row.name, row.email⟩) ∧
    Slice.len (r.FindAll f).1 = r.db.users.length ∧
    (r.db.users = [] → r.FindAll f = (none, none) ∧ Slice.len (r.FindAll f).1 = 0) := by
  have hloop := FindAll_loop_clean f r.db.users 0 none
    (fun j _ h => hquery.2 j (by omega)) (fun j _ h => hscan j (by omega))
  have hval : r.FindAll f =
      (if r.db.users = [] then none
        else some (r.db.users.map (fun row => ⟨row.id, row.name, row.email⟩)), none) := by
    unfold PostgresUserRepository.FindAll DB.QueryAll
    rw [hquery.1]
    simp only [hloop]
    simp [Slice.elems]
  rw [hval]
  by_cases hr : r.db.users = []
  · simp [hr, Slice.elems, Slice.len]
  · simp [hr, Slice.elems, Slice.len]

/-- A table with two rows, and the empty table, are listed. -/
theorem FindAll_spec_witness :
    Slice.elems (PostgresUserRepository.FindAll ⟨⟨[⟨1, [66], [67]⟩, ⟨2, [65], [68]⟩]⟩⟩
        Faults.clean).1 = [⟨1, [66], [67]⟩, ⟨2, [65], [68]⟩] ∧
      PostgresUserRepository.FindAll ⟨⟨[]⟩⟩ Faults.clean = (none, none) :=
  ⟨(FindAll_spec ⟨⟨[⟨1, [66], [67]⟩, ⟨2, [65], [68]⟩]⟩⟩ Faults.clean
      ⟨rfl, fun _ _ => rfl⟩ (fun _ _ => rfl)).2.1,
    ((FindAll_spec ⟨⟨[]⟩⟩ Faults.clean ⟨rfl, fun _ _ => rfl⟩ (fun _ _ => rfl)).2.2.2 rfl).1⟩

/-- C9: on a table of two rows whose cursor fails after the first row, `rows.Err()` holds the
error of the driver, yet `FindAll` returns the first user alone together with a nil error. -/
theorem FindAll_swallows_cursor_error :
    Rows.Err (Faults.stream lostAfterOneRow 0
        [(⟨1, [66], [67]⟩ : Row), ⟨2, [65], [68]⟩]) = some (GoError.driver ⟨8006⟩) ∧
      PostgresUserRepository.FindAll ⟨⟨[⟨1, [66], [67]⟩, ⟨2, [65], [68]⟩]⟩⟩ lostAfterOneRow
        = (some [⟨1, [66], [67]⟩], none) := by
  constructor <;> rfl

/-! ## The database port -/

set_option maxRecDepth 100000

/-- C10, as stated, fails: the string "9223372036854775808" is a decimal literal for `2 ^ 63`,
yet the port is `2 ^ 63 - 1`, neither the literal value nor 0; and the string
"99999999999999999999x" is not empty and no literal, yet the port is `2 ^ 63 - 1`, not 0. -/
theorem port_not_literal_value_or_zero :
    (isLiteral twoPow63Literal ∧ literalValue twoPow63Literal = 9223372036854775808 ∧
      main.port twoPow63Literal = 9223372036854775807) ∧
    (twentyNinesAndLetter ≠ [] ∧ ¬ isLiteral twentyNinesAndLetter ∧
      main.port twentyNinesAndLetter = 9223372036854775807) := by
  refine ⟨⟨⟨by decide, by decide⟩, by decide, by decide⟩, by decide, ?_, by decide⟩
  intro h
  exact absurd (h.2 120 (by decide)) (by decide)

/-- C10, amended: the port is 5432 when `DB_PORT` is empty; it is `n` when `DB_PORT` is a
decimal literal (an optional sign and one or more digits) for an `n` in the range of a 64-bit
`int`; it is the bound `2 ^ 63 - 1` or `-2 ^ 63` on the side of `n` when the literal is out of
that range; it is 0 for every other non-empty string whose leading digits after the optional
sign denote at most `maxUint64`; and it is the bound on the side of the sign for a string that
is no literal but whose leading digits denote more than `maxUint64`. -/
theorem port_spec (s : GoString) :
    (s = [] → main.port s = 5432) ∧
    (isLiteral s → -(2 ^ 63) ≤ literalValue s → literalValue s ≤ 2 ^ 63 - 1 →
      main.port s = literalValue s) ∧
    (isLiteral s → 2 ^ 63 - 1 < literalValue s → main.port s = 2 ^ 63 - 1) ∧
    (isLiteral s → literalValue s < -(2 ^ 63) → main.port s = -(2 ^ 63)) ∧
    (s ≠ [] → ¬ isLiteral s → decimal (digitRun s) < 2 ^ 64 → main.port s = 0) ∧
    (¬ isLiteral s → 2 ^ 64 ≤ decimal (digitRun s) →
      main.port s = if negative s = true then -(2 ^ 63) else 2 ^ 63 - 1) := by
  have hport : s ≠ [] → main.port s = atoiValue s := by
    intro hs
    unfold main.port
    simp only [hs, if_false]
    exact Atoi_eq s hs
  have hne : isLiteral s → s ≠ [] := by
    intro hl hs
    subst hs
    exact hl.1 rfl
  have hall : isLiteral s → (unsigned s ≠ [] ∧ (unsigned s).all isDigit = true) := by
    intro hl
    exact ⟨hl.1, by simpa using hl.2⟩
  have hrun : isLiteral s → digitRun s = unsigned s := by
    intro hl
    unfold digitRun
    exact List.takeWhile_eq_self_iff.mpr hl.2
  refine ⟨?_, ?_, ?_, ?_, ?_, ?_⟩
  · intro hs
    subst hs
    decide
  · intro hl hlo hhi
    rw [hport (hne hl)]
    unfold atoiValue
    rw [hrun hl, if_pos (hall hl)]
    unfold literalValue at hlo hhi ⊢
    unfold clampInt
    split_ifs at hlo hhi ⊢ <;> omega
  · intro hl hhi
    rw [hport (hne hl)]
    unfold atoiValue
    rw [hrun hl, if_pos (hall hl)]
    unfold literalValue at hhi ⊢
    unfold clampInt
    split_ifs at hhi ⊢ <;> omega
  · intro hl hlo
    rw [hport (hne hl)]
    unfold atoiValue
    rw [hrun hl, if_pos (hall hl)]
    unfold literalValue at hlo ⊢
    unfold clampInt
    split_ifs at hlo ⊢ <;> omega
  · intro hs hnl hsmall
    rw [hport hs]
    unfold atoiValue
    have hnot : ¬ (unsigned s ≠ [] ∧ (unsigned s).all isDigit = true) := by
      intro h
      exact hnl ⟨h.1, by simpa using h.2⟩
    rw [if_neg (by omega), if_neg hnot]
  · intro _ hbig
    have hs : s ≠ [] := by
      intro hs
      subst hs
      exact absurd hbig (by decide)
    rw [hport hs]
    unfold atoiValue
    rw [if_pos hbig]

/-- The string "8080" gives the port 8080. -/
theorem port_spec_witness : main.port [56, 48, 56, 48] = 8080 :=
  (port_spec [56, 48, 56, 48]).2.1 ⟨by decide, by decide⟩ (by decide) (by decide)

end TareaApiUsuarios
